import Mathlib

/-!
# Verification of the browser-control extension's command/response agent

Shallow embedding of the browser-extension side of the authenticated
command/response bus (extension background script, shared message types
and the MCP server's tool layer), together with theorems checking the
specification's claims about it.

Conventions of the embedding:
* JavaScript strings are modelled as `String`; the page body text handled
  by the content pager is modelled as `List Char` (lengths and slices in
  characters, as in the source's `substring` arithmetic).
* Browser primitives (`browser.tabs.*`, `browser.find.*`,
  `browser.history.*`) are external collaborators; an `Env` record
  supplies their observable results, and each invocation is recorded as
  an `Effect` in an effect trace, in source order.
* Each handler returns the pair (effect trace, list of `ExtensionMessage`
  results handed to `sendResourceToServer`).
-/

namespace BrowserControl

/-! ## Wire frames and the signature gate (extension message listener)

The listener parses a frame `{ payload, signature }`, recomputes
`getMessageSignature(JSON.stringify(payload), secret)` and dispatches the
payload only when the recomputed MAC is nonempty and equal to the frame's
signature field.  `getMessageSignature` lives in the extension's `auth`
module and is abstracted here as a function parameter `mac`.
`signature := none` models a frame whose signature field is absent
(in the source, `messageSig !== undefined` always holds, so such a frame
is rejected). -/

structure SignedMessage where
  payload : String
  signature : Option String
deriving DecidableEq, Repr

/-- The acceptance test of the message listener: dispatch iff
`¬(messageSig.length === 0 || messageSig !== signedMessage.signature)`. -/
def acceptFrame (mac : String → String → String) (secret : String)
    (m : SignedMessage) : Bool :=
  let messageSig := mac m.payload secret
  !(messageSig.length == 0) && (m.signature == some messageSig)

/-! ## JavaScript string helpers

The source manipulates JS strings with `startsWith`, `includes`, `trim`
and `||` (first truthy).  They are modelled over the character list of a
`String` so that all of them compute by kernel reduction. -/

/-- JS `s.startsWith(pre)`. -/
def jsStartsWith (s pre : String) : Bool :=
  pre.toList.isPrefixOf s.toList

/-- JS `s.includes(c)` for a one-character needle. -/
def jsIncludes (s : String) (c : Char) : Bool :=
  s.toList.contains c

/-- JS `s.trim()`: strip leading and trailing whitespace. -/
def jsTrim (s : String) : String :=
  ⟨((s.toList.dropWhile Char.isWhitespace).reverse.dropWhile
      Char.isWhitespace).reverse⟩

/-- JS `a || b` on strings: the empty string is falsy. -/
def jsOr (a b : String) : String :=
  if a == "" then b else a

/-! ## Data model: pages, tabs, history, effects, results -/

/-- A link as returned by the injected script: `{ url: el.href, text: ... }`. -/
structure Link where
  url : String
  text : String
deriving DecidableEq

/-- An `a[href]` element of the page.  An absent `aria-label`/`title`
attribute is modelled as `""`, which has the same falsy behaviour under
JS `||` as `getAttribute`'s `null`. -/
structure LinkElement where
  href : String
  innerText : String
  ariaLabel : String
  title : String
deriving DecidableEq

/-- The observable DOM state of one tab: `document.body.innerText` (as a
character list) and its `a[href]` elements. -/
structure Page where
  bodyInnerText : List Char
  linkElements : List LinkElement
deriving DecidableEq

/-- A `browser.history` item; `url`, `title`, `lastVisitTime` are optional
in the WebExtension API. -/
structure HistoryItem where
  url : Option String
  title : Option String
  lastVisitTime : Option Nat
deriving DecidableEq

/-- A `browser.tabs` item (the fields the source reads). -/
structure TabInfo where
  id : Option Nat
  url : Option String
  title : Option String
  lastAccessed : Option Nat
deriving DecidableEq

/-- Oracles for the external browser-automation primitives: what each
`browser.*` call would observe or return at dispatch time. -/
structure Env where
  createTabId : String → Nat
  removeOk : List Nat → Bool
  moveOk : Nat → Nat → Bool
  findCount : Nat → String → Nat
  openTabs : List TabInfo
  history : List HistoryItem
  page : Nat → Page

/-- One invocation of a browser primitive (or of the console), recorded
in source order. -/
inductive Effect where
  | createTab (url : String)
  | removeTabs (tabIds : List Nat)
  | queryTabs
  | searchHistory (text : String) (maxResults : Nat)
  | executeScript (tabId : Nat)
  | moveTab (tabId : Nat) (index : Nat)
  | findText (tabId : Nat) (phrase : String)
  | activateTab (tabId : Nat)
  | highlightResults (tabId : Nat)
  | logInfo
  | logError
deriving DecidableEq

/-- A result handed to `sendResourceToServer`, i.e. the `ExtensionMessage`
union of the common package as produced by the handlers. -/
inductive ExtensionMessage where
  | openedTabId (correlationId : String) (tabId : Nat)
  | tabs (correlationId : String) (tabs : List TabInfo)
  | history (correlationId : String) (historyItems : List HistoryItem)
  | tabContent (correlationId : String) (tabId : Nat) (isTruncated : Bool)
      (fullText : List Char) (links : List Link) (totalLength : Nat)
  | tabsReordered (correlationId : String) (tabOrder : List Nat)
  | findHighlightResult (correlationId : String) (noOfResults : Nat)
deriving DecidableEq

/-- `ServerMessageRequest` from the common package: the closed union of
command kinds, each carrying a correlation id. -/
inductive ServerMessageRequest where
  | openTab (correlationId : String) (url : String)
  | closeTabs (correlationId : String) (tabIds : List Nat)
  | getTabList (correlationId : String)
  | getBrowserRecentHistory (correlationId : String) (searchQuery : Option String)
  | getTabContent (correlationId : String) (tabId : Nat) (offset : Option Nat)
  | reorderTabs (correlationId : String) (tabOrder : List Nat)
  | findHighlight (correlationId : String) (tabId : Nat) (queryPhrase : String)
  | groupTabs (correlationId : String) (tabIds : List Nat) (isCollapsed : Bool)
      (groupColor : String) (groupTitle : String)
deriving DecidableEq

/-! ## The agent-side handlers -/

/-- `openUrl`: reject (log, no result) any url not starting with
`https://`; otherwise create the tab and send `opened-tab-id`. -/
def openUrl (env : Env) (correlationId : String) (url : String) :
    List Effect × List ExtensionMessage :=
  if jsStartsWith url "https://" then
    ([Effect.createTab url],
     [ExtensionMessage.openedTabId correlationId (env.createTabId url)])
  else
    ([Effect.logError], [])

/-- `closeTabs`: one `browser.tabs.remove(tabIds)` call on the whole list,
its promise logged on success and caught+logged on failure; nothing is
sent either way. -/
def closeTabs (env : Env) (tabIds : List Nat) :
    List Effect × List ExtensionMessage :=
  if env.removeOk tabIds then
    ([Effect.removeTabs tabIds, Effect.logInfo], [])
  else
    ([Effect.removeTabs tabIds, Effect.logError], [])

/-- `sendTabs`: query all tabs and send them back. -/
def sendTabs (env : Env) (correlationId : String) :
    List Effect × List ExtensionMessage :=
  ([Effect.queryTabs], [ExtensionMessage.tabs correlationId env.openTabs])

/-- Whether a history item matches a search text.  Models the
`browser.history.search` text match at the interface boundary (the
primitive is external): a match means the text occurs in the item's url
or title, so the empty text matches every item. -/
def containsRun (needle : List Char) : List Char → Bool
  | [] => needle.isEmpty
  | c :: rest => needle.isPrefixOf (c :: rest) || containsRun needle rest

/-- The text-match predicate applied by `browser.history.search` to each
stored item: the search text occurs in the item's url or title. -/
def matchesQuery (text : String) (item : HistoryItem) : Bool :=
  containsRun text.toList (item.url.getD "").toList
    || containsRun text.toList (item.title.getD "").toList

/-- `browser.history.search({text, maxResults, startTime: 0})` at its
interface boundary: the matching items, capped at `maxResults`. -/
def historySearch (env : Env) (text : String) (maxResults : Nat) :
    List HistoryItem :=
  (env.history.filter (matchesQuery text)).take maxResults

/-- `sendRecentHistory`: search with `searchQuery ?? ""` and
`maxResults: 200`, keep only items with a url, send them back. -/
def sendRecentHistory (env : Env) (correlationId : String)
    (searchQuery : Option String) : List Effect × List ExtensionMessage :=
  let text := searchQuery.getD ""
  let historyItems := historySearch env text 200
  let filteredHistoryItems := historyItems.filter (fun item => item.url.isSome)
  ([Effect.searchHistory text 200],
   [ExtensionMessage.history correlationId filteredHistoryItems])

/-! ## The injected content script and the pager -/

def MAX_CONTENT_LENGTH : Nat := 50000

structure TextContent where
  text : List Char
  isTruncated : Bool
deriving DecidableEq

/-- `getTextContent` of the injected script:
`document.body.innerText.substring(offset)`, truncated to
`MAX_CONTENT_LENGTH` characters when longer. -/
def getTextContent (bodyInnerText : List Char) (offset : Nat) : TextContent :=
  let text := bodyInnerText.drop offset
  if text.length > MAX_CONTENT_LENGTH then
    { text := text.take MAX_CONTENT_LENGTH, isTruncated := true }
  else
    { text := text, isTruncated := false }

/-- The link text chosen by the injected script:
`el.innerText.trim() || el.getAttribute('aria-label') || el.getAttribute('title') || ''`. -/
def linkTextOf (el : LinkElement) : String :=
  jsOr (jsTrim el.innerText) (jsOr el.ariaLabel (jsOr el.title ""))

/-- `getLinks` of the injected script: map every `a[href]` element and keep
links with nonempty text, an `https://` url and no `#` in the url. -/
def getLinks (els : List LinkElement) : List Link :=
  (els.map (fun el => { url := el.href, text := linkTextOf el })).filter
    (fun link =>
      !(link.text == "") && jsStartsWith link.url "https://"
        && !(jsIncludes link.url '#'))

/-- The object returned by the injected script. -/
structure ScriptResult where
  links : List Link
  fullText : List Char
  isTruncated : Bool
  totalLength : Nat
deriving DecidableEq

/-- The whole injected script: links are always extracted; the text window
starts at `offset`; `totalLength` is the full body-text length. -/
def injectedScript (page : Page) (offset : Nat) : ScriptResult :=
  let textContent := getTextContent page.bodyInnerText offset
  { links := getLinks page.linkElements
    fullText := textContent.text
    isTruncated := textContent.isTruncated
    totalLength := page.bodyInnerText.length }

/-- `sendTabsContent`: execute the script with `${offset || 0}` and send
one `tab-content` result with everything the script returned. -/
def sendTabsContent (env : Env) (correlationId : String) (tabId : Nat)
    (offset : Option Nat) : List Effect × List ExtensionMessage :=
  let r := injectedScript (env.page tabId) (offset.getD 0)
  ([Effect.executeScript tabId],
   [ExtensionMessage.tabContent correlationId tabId r.isTruncated r.fullText
      r.links r.totalLength])

/-! ## reorderTabs and findAndHighlightText -/

/-- The `for` loop of `reorderTabs`: move `tabOrder[newIndex]` to index
`newIndex`; a failed move is caught and logged and the loop continues. -/
def reorderLoop (env : Env) (tabOrder : List Nat) (newIndex : Nat) :
    List Effect :=
  match tabOrder with
  | [] => []
  | tabId :: rest =>
    (if env.moveOk tabId newIndex then [Effect.moveTab tabId newIndex]
     else [Effect.moveTab tabId newIndex, Effect.logError])
      ++ reorderLoop env rest (newIndex + 1)

/-- `reorderTabs`: run the move loop from index 0, then send exactly one
`tabs-reordered` result echoing the requested `tabOrder`. -/
def reorderTabs (env : Env) (correlationId : String) (tabOrder : List Nat) :
    List Effect × List ExtensionMessage :=
  (reorderLoop env tabOrder 0,
   [ExtensionMessage.tabsReordered correlationId tabOrder])

/-- `findAndHighlightText`: `browser.find.find`; when the count is
positive, activate the tab and then highlight; always send one
`find-highlight-result` with the count. -/
def findAndHighlightText (env : Env) (correlationId : String) (tabId : Nat)
    (queryPhrase : String) : List Effect × List ExtensionMessage :=
  let count := env.findCount tabId queryPhrase
  ((if count > 0 then
      [Effect.findText tabId queryPhrase, Effect.activateTab tabId,
       Effect.highlightResults tabId]
    else
      [Effect.findText tabId queryPhrase]),
   [ExtensionMessage.findHighlightResult correlationId count])

/-! ## The dispatcher -/

/-- Outcome of `handleDecodedMessage`: either a switch arm ran (with its
effect trace and sent results), or the message fell through to the
`default` branch, which only logs "Invalid message received". -/
inductive DispatchOutcome where
  | handled (effects : List Effect) (messages : List ExtensionMessage)
  | droppedUnknown
deriving DecidableEq

/-- `handleDecodedMessage` of the extension background script: the switch
over `req.cmd`.  The source has arms for the seven kinds below and no arm
for `group-tabs`, which therefore reaches the `default` branch. -/
def handleDecodedMessage (env : Env) (req : ServerMessageRequest) :
    DispatchOutcome :=
  match req with
  | .openTab correlationId url =>
      let r := openUrl env correlationId url
      .handled r.1 r.2
  | .closeTabs _ tabIds =>
      let r := closeTabs env tabIds
      .handled r.1 r.2
  | .getTabList correlationId =>
      let r := sendTabs env correlationId
      .handled r.1 r.2
  | .getBrowserRecentHistory correlationId searchQuery =>
      let r := sendRecentHistory env correlationId searchQuery
      .handled r.1 r.2
  | .getTabContent correlationId tabId offset =>
      let r := sendTabsContent env correlationId tabId offset
      .handled r.1 r.2
  | .reorderTabs correlationId tabOrder =>
      let r := reorderTabs env correlationId tabOrder
      .handled r.1 r.2
  | .findHighlight correlationId tabId queryPhrase =>
      let r := findAndHighlightText env correlationId tabId queryPhrase
      .handled r.1 r.2
  | .groupTabs _ _ _ _ _ => .droppedUnknown

/-! ## The MCP server's `get-tab-web-content` tool layer -/

/-- The `tab-content` response fields the server tool reads. -/
structure TabContentResponse where
  isTruncated : Bool
  fullText : List Char
  links : List Link
  totalLength : Nat
deriving DecidableEq

/-- One item of the tool's `content` array. -/
inductive ToolContentItem where
  | hintText (rangeStart rangeEnd totalLength : Nat)
  | bodyText (text : List Char)
  | linkItem (linkText linkUrl : String)
deriving DecidableEq

/-- The `get-tab-web-content` tool body: include the mapped links only
when `offset === 0`; prepend the truncation hint when truncated or
`offset > 0`; result is `[...hint, text, ...links]`. -/
def getTabWebContentTool (content : TabContentResponse) (offset : Nat) :
    List ToolContentItem :=
  let links := if offset == 0 then
      content.links.map (fun link => ToolContentItem.linkItem link.text link.url)
    else []
  let hint := if content.isTruncated || offset > 0 then
      [ToolContentItem.hintText offset (offset + content.fullText.length)
        content.totalLength]
    else []
  hint ++ [ToolContentItem.bodyText content.fullText] ++ links

/-! ## The reconnecting WebSocket client -/

def WS_PORTS : List Nat := [8081, 8082]

/-- The interval passed to `setInterval` (milliseconds). -/
def RETRY_INTERVAL_MS : Nat := 2000

/-- `WebSocket.readyState` values. -/
inductive ReadyState where
  | CONNECTING
  | OPEN
  | CLOSING
  | CLOSED
deriving DecidableEq

/-- One `initWsClient` closure: its port, its `socket` variable (`none`
models the initial `null`) and how many times `connectWebSocket` ran. -/
structure WsClient where
  port : Nat
  socket : Option ReadyState
  connectAttempts : Nat
deriving DecidableEq

/-- `connectWebSocket()`: replace the socket with a fresh connecting one. -/
def connectWebSocket (c : WsClient) : WsClient :=
  { c with socket := some ReadyState.CONNECTING,
           connectAttempts := c.connectAttempts + 1 }

/-- `initWsClient(port, secret)`: connect immediately on load, then the
interval timer takes over. -/
def initWsClient (port : Nat) : WsClient :=
  connectWebSocket { port := port, socket := none, connectAttempts := 0 }

/-- The `setInterval` callback: reconnect iff
`!socket || socket.readyState === WebSocket.CLOSED`. -/
def intervalCallback (c : WsClient) : WsClient :=
  if c.socket = none ∨ c.socket = some ReadyState.CLOSED then
    connectWebSocket c
  else c

/-- Run `n` timer ticks (one every `RETRY_INTERVAL_MS`); before tick `k`
the network environment `upd k` may change the observed socket state
(open, error-close, …). -/
def runTicks (upd : Nat → Option ReadyState → Option ReadyState)
    (c : WsClient) : Nat → WsClient
  | 0 => c
  | n + 1 =>
    let prev := runTicks upd c n
    intervalCallback { prev with socket := upd n prev.socket }

/-! ## Theorems -/

/-- A string has length 0 iff it is the empty string. -/
theorem length_zero_iff_empty (s : String) : s.length = 0 ↔ s = "" := by
  obtain ⟨data⟩ := s
  cases data <;> simp [String.length, String.ext_iff]

/-- Unfolding of the message listener's acceptance test. -/
theorem acceptFrame_eq_true_iff (mac : String → String → String)
    (secret : String) (m : SignedMessage) :
    acceptFrame mac secret m = true ↔
      (mac m.payload secret ≠ "" ∧
        m.signature = some (mac m.payload secret)) := by
  show (!((mac m.payload secret).length == 0)
      && (m.signature == some (mac m.payload secret))) = true ↔ _
  rw [Bool.and_eq_true, Bool.not_eq_true', beq_eq_false_iff_ne, beq_iff_eq]
  exact ⟨fun h => ⟨fun he => h.1 (by rw [he]; rfl), h.2⟩,
         fun h => ⟨fun he => h.1 ((length_zero_iff_empty _).mp he), h.2⟩⟩

/-- C1: an inbound wire frame is dispatched to the command handler iff the
locally recomputed MAC of the serialized payload is nonempty and equal to
the frame's signature field; a frame whose signature is empty, missing, or
different from the recomputed MAC is dropped, and a frame whose payload was
mutated in transit (so that its MAC no longer matches the carried
signature) is dropped even when the original frame would have been
accepted. -/
theorem accept_iff_mac_matches (mac : String → String → String)
    (secret : String) (m : SignedMessage) :
    (acceptFrame mac secret m = true ↔
      (mac m.payload secret ≠ "" ∧ m.signature = some (mac m.payload secret)))
    ∧ ((m.signature = some "" ∨ m.signature = none) →
        mac m.payload secret ≠ "" → acceptFrame mac secret m = false)
    ∧ (∀ payload2 : String, mac payload2 secret ≠ mac m.payload secret →
        acceptFrame mac secret m = true →
        acceptFrame mac secret
          { payload := payload2, signature := m.signature } = false) := by
  have hiff := acceptFrame_eq_true_iff mac secret m
  refine ⟨hiff, ?_, ?_⟩
  · intro hsig hne
    cases hbool : acceptFrame mac secret m with
    | false => rfl
    | true =>
      obtain ⟨hmac, hval⟩ := hiff.mp hbool
      cases hsig with
      | inl h => rw [h] at hval; exact absurd (Option.some.inj hval).symm hmac
      | inr h => rw [h] at hval; exact absurd hval (by simp)
  · intro payload2 hdiff hacc
    obtain ⟨hmac, hval⟩ := hiff.mp hacc
    cases hbool : acceptFrame mac secret
        { payload := payload2, signature := m.signature } with
    | false => rfl
    | true =>
      obtain ⟨_, hval2⟩ := (acceptFrame_eq_true_iff mac secret
        { payload := payload2, signature := m.signature }).mp hbool
      rw [hval] at hval2
      exact absurd (Option.some.inj hval2).symm hdiff

/-- A concrete MAC (`secret ++ payload`) for exercising the signature gate. -/
def macConcat (payload secret : String) : String :=
  secret ++ payload

/-- Witness for C1 at concrete inputs: a matching frame is accepted; the
same frame with an empty or missing signature is dropped; mutating the
payload under the original signature is dropped. -/
theorem accept_iff_mac_matches_witness :
    acceptFrame macConcat "k" { payload := "payload", signature := some "kpayload" } = true
    ∧ acceptFrame macConcat "k" { payload := "payload", signature := some "" } = false
    ∧ acceptFrame macConcat "k" { payload := "payload", signature := none } = false
    ∧ acceptFrame macConcat "k" { payload := "x", signature := some "kpayload" } = false := by
  have h := accept_iff_mac_matches macConcat "k"
    { payload := "payload", signature := some "kpayload" }
  have hacc : acceptFrame macConcat "k"
      { payload := "payload", signature := some "kpayload" } = true :=
    (h.1).mpr ⟨by decide, by decide⟩
  refine ⟨hacc, ?_, ?_, ?_⟩
  · exact (accept_iff_mac_matches macConcat "k"
      { payload := "payload", signature := some "" }).2.1 (Or.inl rfl) (by decide)
  · exact (accept_iff_mac_matches macConcat "k"
      { payload := "payload", signature := none }).2.1 (Or.inr rfl) (by decide)
  · exact h.2.2 "x" (by decide) hacc

/-- C2 (the code falls short of it): the `group-tabs` command of the closed
vocabulary has no arm in `handleDecodedMessage` and falls through to the
unknown-command drop branch, although the never-typed exhaustiveness check
of the switch and the server's `group-browser-tabs` tool both expect it to
be handled; moreover the `close-tabs` arm, while present, emits no Result
at all. -/
theorem group_tabs_falls_through (env : Env) (correlationId : String)
    (tabIds : List Nat) (isCollapsed : Bool) (groupColor groupTitle : String) :
    handleDecodedMessage env (ServerMessageRequest.groupTabs correlationId
        tabIds isCollapsed groupColor groupTitle)
      = DispatchOutcome.droppedUnknown
    ∧ handleDecodedMessage env (ServerMessageRequest.closeTabs correlationId
        tabIds)
      = DispatchOutcome.handled (closeTabs env tabIds).1 [] := by
  refine ⟨rfl, ?_⟩
  show DispatchOutcome.handled (closeTabs env tabIds).1
      (closeTabs env tabIds).2 = _
  unfold closeTabs
  cases h : env.removeOk tabIds <;> simp [h]

/-- A concrete environment in which every browser primitive succeeds. -/
def envAllOk : Env where
  createTabId := fun _ => 42
  removeOk := fun _ => true
  moveOk := fun _ _ => true
  findCount := fun _ _ => 0
  openTabs := []
  history := []
  page := fun _ => { bodyInnerText := [], linkElements := [] }

/-- A concrete environment in which removing and moving tabs fail. -/
def envAllFail : Env :=
  { envAllOk with removeOk := fun _ => false, moveOk := fun _ _ => false }

/-- C3 counterexample: for the close-tabs command on ids `[1, 2]` (every
removal succeeding) the close handler issues one batched remove of the
whole list — not a per-id sequence of closes — and emits zero Results, not
the single completion Result the claim requires. -/
theorem close_tabs_counterexample :
    closeTabs envAllOk [1, 2] =
      ([Effect.removeTabs [1, 2], Effect.logInfo], []) := rfl

/-- C3 amended: for every close-tabs command, the whole id list is passed
to a single batched `browser.tabs.remove` call; a failure of that batch is
caught and logged (it does not propagate); and no Result is emitted for
the command, whether the batch succeeds or fails. -/
theorem close_tabs_batched_no_result (env : Env) (tabIds : List Nat) :
    (closeTabs env tabIds).2 = []
    ∧ (closeTabs env tabIds).1.head? = some (Effect.removeTabs tabIds)
    ∧ (env.removeOk tabIds = false →
        Effect.logError ∈ (closeTabs env tabIds).1) := by
  unfold closeTabs
  cases h : env.removeOk tabIds <;> simp

/-- Witness for the amended C3 at a concrete input: a failing batch is
logged and still emits no Result. -/
theorem close_tabs_batched_no_result_witness :
    (closeTabs envAllFail [3]).2 = []
    ∧ Effect.logError ∈ (closeTabs envAllFail [3]).1 := by
  have h := close_tabs_batched_no_result envAllFail [3]
  exact ⟨h.1, h.2.2 rfl⟩

/-- C5: an open-tab command whose url does not start with `https://` is
dropped with a log and no Result; one whose url does start with `https://`
creates a tab and emits one `opened-tab-id` Result carrying the new tab id
and the command's correlation id. -/
theorem open_url_https_boundary (env : Env) (correlationId url : String) :
    (jsStartsWith url "https://" = false →
      openUrl env correlationId url = ([Effect.logError], []))
    ∧ (jsStartsWith url "https://" = true →
      openUrl env correlationId url =
        ([Effect.createTab url],
         [ExtensionMessage.openedTabId correlationId (env.createTabId url)])) := by
  unfold openUrl
  constructor <;> intro h <;> simp [h]

/-- Witness for C5 at concrete urls: `http://example.com` is dropped,
`https://example.com` opens tab 42 for correlation id `c1`. -/
theorem open_url_https_boundary_witness :
    openUrl envAllOk "c1" "http://example.com" = ([Effect.logError], [])
    ∧ openUrl envAllOk "c1" "https://example.com" =
        ([Effect.createTab "https://example.com"],
         [ExtensionMessage.openedTabId "c1" 42]) :=
  ⟨(open_url_https_boundary envAllOk "c1" "http://example.com").1 (by decide),
   (open_url_https_boundary envAllOk "c1" "https://example.com").2 (by decide)⟩

/-- C4: for a document text of length `L` and any offset in `[0, L]`, the
pager returns the slice of at most `MAX_CONTENT_LENGTH` characters starting
at `offset`, with `offset + len(text) ≤ L`,
`isTruncated = (offset + len(text) < L)`, and `totalLength` reported as the
full untruncated length `L`. -/
theorem pagination_invariant (fullText : List Char) (els : List LinkElement)
    (offset : Nat) (h : offset ≤ fullText.length) :
    (getTextContent fullText offset).text.length ≤ MAX_CONTENT_LENGTH
    ∧ (getTextContent fullText offset).text
        = (fullText.drop offset).take MAX_CONTENT_LENGTH
    ∧ offset + (getTextContent fullText offset).text.length ≤ fullText.length
    ∧ ((getTextContent fullText offset).isTruncated = true
        ↔ offset + (getTextContent fullText offset).text.length
            < fullText.length)
    ∧ (injectedScript { bodyInnerText := fullText, linkElements := els }
        offset).totalLength = fullText.length := by
  have hdrop : (fullText.drop offset).length = fullText.length - offset :=
    List.length_drop offset fullText
  by_cases hc : (fullText.drop offset).length > MAX_CONTENT_LENGTH
  · have hlen : ((fullText.drop offset).take MAX_CONTENT_LENGTH).length
        = MAX_CONTENT_LENGTH := by
      rw [List.length_take]; omega
    have hgtc : getTextContent fullText offset =
        { text := (fullText.drop offset).take MAX_CONTENT_LENGTH,
          isTruncated := true } := by
      unfold getTextContent
      rw [if_pos hc]
    rw [hgtc]
    refine ⟨by rw [hlen], rfl, by rw [hlen]; omega, ?_, rfl⟩
    rw [hlen]
    exact ⟨fun _ => by omega, fun _ => rfl⟩
  · have hle : (fullText.drop offset).length ≤ MAX_CONTENT_LENGTH := by omega
    have hgtc : getTextContent fullText offset =
        { text := fullText.drop offset, isTruncated := false } := by
      unfold getTextContent
      rw [if_neg hc]
    rw [hgtc]
    refine ⟨by rw [hdrop]; omega, (List.take_of_length_le hle).symm,
      by rw [hdrop]; omega, ?_, rfl⟩
    rw [hdrop]
    constructor
    · intro hfalse
      exact absurd hfalse (by simp)
    · intro hlt
      exact absurd hlt (by omega)

/-- Witness for C4 on a concrete 7-character document at offset 3. -/
theorem pagination_invariant_witness :
    3 ≤ ("content".toList).length
    ∧ (getTextContent "content".toList 3).text.length ≤ MAX_CONTENT_LENGTH
    ∧ (getTextContent "content".toList 3).text
        = (("content".toList).drop 3).take MAX_CONTENT_LENGTH
    ∧ 3 + (getTextContent "content".toList 3).text.length
        ≤ ("content".toList).length
    ∧ ((getTextContent "content".toList 3).isTruncated = true
        ↔ 3 + (getTextContent "content".toList 3).text.length
            < ("content".toList).length)
    ∧ (injectedScript { bodyInnerText := "content".toList, linkElements := [] }
        3).totalLength = ("content".toList).length :=
  ⟨by decide, pagination_invariant "content".toList [] 3 (by decide)⟩

/-- A page with one qualifying link, for exercising link extraction. -/
def pageWithLink : Page where
  bodyInnerText := "hello world".toList
  linkElements := [{ href := "https://a.example/", innerText := "A link",
                     ariaLabel := "", title := "" }]

/-- A concrete environment whose every tab shows `pageWithLink`. -/
def envWithLink : Env := { envAllOk with page := fun _ => pageWithLink }

/-- C6 counterexample: at offset 3 (> 0) the agent still performs link
extraction — the `tab-content` Result it emits carries the page's link
list, not an empty one; only the MCP server's tool layer later hides the
links from the caller. -/
theorem links_extracted_at_nonzero_offset :
    (sendTabsContent envWithLink "c6" 7 (some 3)).2 =
      [ExtensionMessage.tabContent "c6" 7 false "lo world".toList
        [{ url := "https://a.example/", text := "A link" }] 11] := by
  decide

/-- Whether a tool content item is a link item. -/
def isLinkItem : ToolContentItem → Bool
  | .linkItem _ _ => true
  | _ => false

/-- Filtering for link items over a mapped link list keeps everything. -/
theorem filter_linkItem_map (links : List Link) :
    (links.map (fun link => ToolContentItem.linkItem link.text link.url)).filter
        isLinkItem
      = links.map (fun link => ToolContentItem.linkItem link.text link.url) := by
  induction links with
  | nil => rfl
  | cons a as ih => simp [isLinkItem, ih]

/-- C6 amended: the agent extracts links on every get-tab-content request,
whatever the offset, and always ships them in its `tab-content` Result;
the result delivered to the caller contains link items iff the request's
offset is 0 — the MCP server's tool layer includes the mapped link list at
offset 0 and omits it entirely at any positive offset. -/
theorem links_shown_only_at_offset_zero (env : Env) (correlationId : String)
    (tabId : Nat) (offset : Option Nat) (content : TabContentResponse)
    (callerOffset : Nat) :
    (sendTabsContent env correlationId tabId offset).2 =
      [ExtensionMessage.tabContent correlationId tabId
        (getTextContent (env.page tabId).bodyInnerText (offset.getD 0)).isTruncated
        (getTextContent (env.page tabId).bodyInnerText (offset.getD 0)).text
        (getLinks (env.page tabId).linkElements)
        (env.page tabId).bodyInnerText.length]
    ∧ (getTabWebContentTool content callerOffset).filter isLinkItem
      = (if callerOffset = 0 then
          content.links.map (fun link => ToolContentItem.linkItem link.text link.url)
        else []) := by
  refine ⟨rfl, ?_⟩
  by_cases hz : callerOffset = 0
  · subst hz
    cases hI : content.isTruncated <;>
      simp [getTabWebContentTool, isLinkItem, filter_linkItem_map,
        List.filter_append, hI]
  · have hpos : 0 < callerOffset := Nat.pos_of_ne_zero hz
    have hbeq : (callerOffset == 0) = false := by simp [hz]
    cases hI : content.isTruncated <;>
      simp [getTabWebContentTool, isLinkItem, List.filter_append, hbeq, hz,
        hI, hpos]

/-- C7: when the query phrase has zero matches, the tab is neither
activated nor highlighted and the single emitted Result reports count 0;
when at least one match exists, the tab is activated before highlighting;
in both cases exactly one `find-highlight-result` with the match count and
the command's correlation id is emitted. -/
theorem find_highlight_behaviour (env : Env) (correlationId : String)
    (tabId : Nat) (queryPhrase : String) :
    (env.findCount tabId queryPhrase = 0 →
      findAndHighlightText env correlationId tabId queryPhrase =
        ([Effect.findText tabId queryPhrase],
         [ExtensionMessage.findHighlightResult correlationId 0]))
    ∧ (0 < env.findCount tabId queryPhrase →
      findAndHighlightText env correlationId tabId queryPhrase =
        ([Effect.findText tabId queryPhrase, Effect.activateTab tabId,
          Effect.highlightResults tabId],
         [ExtensionMessage.findHighlightResult correlationId
            (env.findCount tabId queryPhrase)])) := by
  unfold findAndHighlightText
  constructor
  · intro h
    simp [h]
  · intro h
    simp [h]

/-- A concrete environment in which the find primitive reports 3 matches. -/
def envFind3 : Env := { envAllOk with findCount := fun _ _ => 3 }

/-- Witness for C7 at concrete inputs: zero matches leave the tab alone,
three matches activate then highlight; one Result each time. -/
theorem find_highlight_behaviour_witness :
    findAndHighlightText envAllOk "c7" 5 "needle" =
      ([Effect.findText 5 "needle"],
       [ExtensionMessage.findHighlightResult "c7" 0])
    ∧ findAndHighlightText envFind3 "c7" 5 "needle" =
      ([Effect.findText 5 "needle", Effect.activateTab 5,
        Effect.highlightResults 5],
       [ExtensionMessage.findHighlightResult "c7" 3]) :=
  ⟨(find_highlight_behaviour envAllOk "c7" 5 "needle").1 rfl,
   (find_highlight_behaviour envFind3 "c7" 5 "needle").2 (by decide)⟩

/-- Full shape of the reorder loop's effect trace: one move per list
element to its sequential target index, a failed move followed by a log
and by all remaining moves. -/
theorem reorder_loop_eq (env : Env) (tabOrder : List Nat) (start : Nat) :
    reorderLoop env tabOrder start
      = (List.enumFrom start tabOrder).flatMap (fun p =>
          if env.moveOk p.2 p.1 then [Effect.moveTab p.2 p.1]
          else [Effect.moveTab p.2 p.1, Effect.logError]) := by
  induction tabOrder generalizing start with
  | nil => rfl
  | cons a as ih =>
    cases h : env.moveOk a start <;>
      simp [reorderLoop, List.enumFrom, h, ih]

/-- C8: the reorder handler moves each listed tab id to its sequential
target index one at a time in the order given; a failed move is logged and
the remaining moves still happen; exactly one Result is emitted after the
whole batch, echoing the requested order together with the command's
correlation id. -/
theorem reorder_tabs_best_effort (env : Env) (correlationId : String)
    (tabOrder : List Nat) :
    (reorderTabs env correlationId tabOrder).1
      = (List.enumFrom 0 tabOrder).flatMap (fun p =>
          if env.moveOk p.2 p.1 then [Effect.moveTab p.2 p.1]
          else [Effect.moveTab p.2 p.1, Effect.logError])
    ∧ (reorderTabs env correlationId tabOrder).2
      = [ExtensionMessage.tabsReordered correlationId tabOrder] :=
  ⟨reorder_loop_eq env tabOrder 0, rfl⟩

/-- The interval callback reconnects whenever the socket is absent or
closed. -/
theorem intervalCallback_disconnected (c : WsClient)
    (h : c.socket = none ∨ c.socket = some ReadyState.CLOSED) :
    intervalCallback c = connectWebSocket c := by
  unfold intervalCallback
  rw [if_pos h]

/-- Ticking never changes which port a client dials. -/
theorem runTicks_port (upd : Nat → Option ReadyState → Option ReadyState)
    (c : WsClient) (n : Nat) : (runTicks upd c n).port = c.port := by
  induction n with
  | zero => rfl
  | succ n ih =>
    show (intervalCallback _).port = c.port
    unfold intervalCallback connectWebSocket
    split <;> simpa using ih

/-- C9: for each configured endpoint port, whenever the client's socket is
absent or closed at a retry tick, that tick unconditionally attempts a new
connection — at every tick index `n`, with no bound on `n` and no backoff
(the timer interval is the fixed constant 2000 ms) — and the client keeps
dialing its own port, independently of the other configured port. -/
theorem retry_every_tick (upd : Nat → Option ReadyState → Option ReadyState)
    (port n : Nat) (_hport : port ∈ WS_PORTS)
    (hdisc : upd n (runTicks upd (initWsClient port) n).socket = none
      ∨ upd n (runTicks upd (initWsClient port) n).socket
          = some ReadyState.CLOSED) :
    (runTicks upd (initWsClient port) (n + 1)).connectAttempts
      = (runTicks upd (initWsClient port) n).connectAttempts + 1
    ∧ (runTicks upd (initWsClient port) (n + 1)).socket
      = some ReadyState.CONNECTING
    ∧ (runTicks upd (initWsClient port) (n + 1)).port = port
    ∧ RETRY_INTERVAL_MS = 2000 := by
  have hstep : runTicks upd (initWsClient port) (n + 1)
      = intervalCallback { runTicks upd (initWsClient port) n with
          socket := upd n (runTicks upd (initWsClient port) n).socket } := rfl
  have hcall := intervalCallback_disconnected
    { runTicks upd (initWsClient port) n with
      socket := upd n (runTicks upd (initWsClient port) n).socket } hdisc
  rw [hstep, hcall]
  refine ⟨rfl, rfl, ?_, rfl⟩
  show (runTicks upd (initWsClient port) n).port = port
  rw [runTicks_port]
  rfl

/-- Witness for C9: with port 8081's socket absent at tick 0, the tick
attempts a new connection. -/
theorem retry_every_tick_witness :
    (runTicks (fun _ _ => none) (initWsClient 8081) 1).connectAttempts
      = (runTicks (fun _ _ => none) (initWsClient 8081) 0).connectAttempts + 1
    ∧ (runTicks (fun _ _ => none) (initWsClient 8081) 1).socket
      = some ReadyState.CONNECTING
    ∧ (runTicks (fun _ _ => none) (initWsClient 8081) 1).port = 8081
    ∧ RETRY_INTERVAL_MS = 2000 :=
  retry_every_tick (fun _ _ => none) 8081 0 (by decide) (Or.inl rfl)

/-- The empty needle occurs in every haystack. -/
theorem containsRun_nil (hay : List Char) : containsRun [] hay = true := by
  cases hay <;> simp [containsRun, List.isPrefixOf]

/-- The empty search text matches every history item. -/
theorem matchesQuery_empty (item : HistoryItem) :
    matchesQuery "" item = true := by
  have h1 := containsRun_nil (item.url.getD "").toList
  have h2 := containsRun_nil (item.title.getD "").toList
  unfold matchesQuery
  rw [show ("" : String).toList = [] from rfl, h1, h2]
  rfl

/-- C10: every `get-browser-recent-history` command produces one history
Result whose item list has at most 200 entries, every entry carrying a
defined url (url-less items are filtered out before sending); an absent
search query is passed to the history search as the empty string, which
matches every stored history entry. -/
theorem recent_history_bounded (env : Env) (correlationId : String)
    (searchQuery : Option String) :
    (sendRecentHistory env correlationId searchQuery).2
      = [ExtensionMessage.history correlationId
          ((historySearch env (searchQuery.getD "") 200).filter
            (fun item => item.url.isSome))]
    ∧ ((historySearch env (searchQuery.getD "") 200).filter
        (fun item => item.url.isSome)).length ≤ 200
    ∧ (∀ item ∈ (historySearch env (searchQuery.getD "") 200).filter
        (fun item => item.url.isSome), item.url.isSome = true)
    ∧ (searchQuery = none →
        historySearch env (searchQuery.getD "") 200 = env.history.take 200) := by
  refine ⟨rfl, ?_, ?_, ?_⟩
  · exact le_trans (List.length_filter_le _ _)
      (List.length_take_le 200 (env.history.filter
        (matchesQuery (searchQuery.getD ""))))
  · intro item hmem
    exact (List.mem_filter.mp hmem).2
  · intro hnone
    subst hnone
    show historySearch env "" 200 = env.history.take 200
    unfold historySearch
    rw [List.filter_eq_self.mpr (fun a _ => matchesQuery_empty a)]

/-- A concrete environment with one url-bearing and one url-less history
item. -/
def envHist : Env :=
  { envAllOk with history :=
      [{ url := some "https://x.example/", title := some "X",
         lastVisitTime := some 1 },
       { url := none, title := some "no url", lastVisitTime := none }] }

/-- Witness for C10 with an absent search query on a concrete store. -/
theorem recent_history_bounded_witness :
    (sendRecentHistory envHist "c10" none).2
      = [ExtensionMessage.history "c10"
          ((historySearch envHist "" 200).filter
            (fun item => item.url.isSome))]
    ∧ ((historySearch envHist "" 200).filter
        (fun item => item.url.isSome)).length ≤ 200
    ∧ (∀ item ∈ (historySearch envHist "" 200).filter
        (fun item => item.url.isSome), item.url.isSome = true)
    ∧ historySearch envHist "" 200 = envHist.history.take 200 := by
  have h := recent_history_bounded envHist "c10" none
  exact ⟨h.1, h.2.1, h.2.2.1, h.2.2.2 rfl⟩

end BrowserControl
